import Mathlib

/-!
Shallow embedding of the UIA event rate limiter
(`nvdaHelper/local/UIAEventLimiter.cpp`).

The embedding follows the source line by line.  Two places in the source
have indeterminate behaviour, and the embedding makes them explicit
instead of silently repairing them:

* `EventRecord_t`'s constructor initialises the member `isCoalesceable`
  from itself (the constructor parameter is spelled `isCoAlesceable`, so
  the mem-initialiser `isCoalesceable(isCoalesceable)` names the member),
  and the constructor body reads the same member.  The value actually
  stored is indeterminate; the embedding threads it through as an explicit
  argument `indet`.

* `queueEvent` moves the `unique_ptr` `record` into the list
  (`m_eventRecords.insert(m_eventRecords.end(), std::move(record))`) and
  afterwards keeps reading and writing through `record`, which is an empty
  handle at that point.  The embedding resolves those accesses to the
  record just appended at the tail of the list and raises a ghost flag
  `movedDeref` whenever such an access happens.
-/

namespace UIAEventLimiter

/-- HRESULT values the module produces on the intake path. -/
inductive HResult where
  | S_OK
  | E_INVALIDARG
  | E_NOTIMPL
  deriving DecidableEq, Repr

/-- An accessibility element, reduced to what the limiter observes of it:
the outcome of `IUIAutomationElement::GetRuntimeId`.  `none` models a
failing `GetRuntimeId` call (the `FAILED(hr)` branch). -/
structure Element where
  runtimeIdResult : Option (List Int)
  deriving DecidableEq, Repr

/-- `getRuntimeIDFromElement`: returns `{}` when `GetRuntimeId` fails and
the retrieved id otherwise.  The C++ function dereferences its argument
unconditionally, so a null element (`none`) yields no result at all. -/
def getRuntimeIDFromElement (pElement : Option Element) : Option (List Int) :=
  match pElement with
  | none => none
  | some e =>
    match e.runtimeIdResult with
    | none => some []
    | some rid => some rid

/-- `UIA_AutomationPropertyChangedEventId`, the sentinel pushed into a
property-changed record's coalescing key. -/
def UIA_AutomationPropertyChangedEventId : Int := 20004

/-- Variant payload of the three `EventRecord_t` subclasses.  The VARIANT
value of a property-changed record is modelled as an integer. -/
inductive EventPayload where
  | focus
  | automation (eventID : Int)
  | propertyChanged (propertyID : Int) (value : Int)
  deriving DecidableEq, Repr

/-- State of one `EventRecord_t` (base fields plus the variant payload). -/
structure EventRecord where
  element : Option Element
  isCoalesceable : Bool
  coalescingKey : List Int
  coalesceCount : Nat
  isOld : Bool
  payload : EventPayload
  deriving DecidableEq, Repr

instance : Inhabited EventRecord := ⟨⟨none, false, [], 0, false, .focus⟩⟩

/-- `EventRecord_t::EventRecord_t(IUIAutomationElement*, bool)`.  The
parameter is spelled `isCoAlesceable` and is never referenced: both the
mem-initialiser `isCoalesceable(isCoalesceable)` and the body's
`if (isCoalesceable)` name the member, which is therefore initialised from
its own indeterminate value.  That value is the explicit argument `indet`.
When the member reads true the constructor fetches the runtime id, which
dereferences the element; a null element then gives no result. -/
def mkEventRecordBase (pElement : Option Element) (isCoAlesceableArg : Bool)
    (indet : Bool) (payload : EventPayload) : Option EventRecord :=
  if indet then
    match getRuntimeIDFromElement pElement with
    | none => none
    | some key => some ⟨pElement, indet, key, 0, false, payload⟩
  else
    some ⟨pElement, indet, [], 0, false, payload⟩

/-- `FocusChangedEventRecord_t`: base constructed with `false`. -/
def mkFocusChangedEventRecord (pElement : Option Element) (indet : Bool) :
    Option EventRecord :=
  mkEventRecordBase pElement false indet .focus

/-- `AutomationEventRecord_t`: base constructed with `true`, then
`coalescingKey.push_back(eventID)`. -/
def mkAutomationEventRecord (pElement : Option Element) (eventID : Int)
    (indet : Bool) : Option EventRecord :=
  match mkEventRecordBase pElement true indet (.automation eventID) with
  | none => none
  | some r => some { r with coalescingKey := r.coalescingKey ++ [eventID] }

/-- `PropertyChangedEventRecord_t`: base constructed with `true`, then the
sentinel and the property id are pushed onto the key. -/
def mkPropertyChangedEventRecord (pElement : Option Element)
    (propertyID : Int) (value : Int) (indet : Bool) : Option EventRecord :=
  match mkEventRecordBase pElement true indet
      (.propertyChanged propertyID value) with
  | none => none
  | some r =>
    some { r with coalescingKey :=
      r.coalescingKey ++ [UIA_AutomationPropertyChangedEventId, propertyID] }

/-- `m_eventRecordsByKey`: a map from coalescing key to an iterator into
`m_eventRecords`.  Because the `erase` of superseded records is commented
out, positions of records in the buffer are stable between flushes, so an
iterator is modelled as a position (index) into the buffer list.  The
`std::map` is modelled as an association list with unique keys (only
`find` and `insert`-on-miss are ever performed on it). -/
abbrev KeyIndex := List (List Int × Nat)

/-- `m_eventRecordsByKey.find(key)`. -/
def keyFind (idx : KeyIndex) (k : List Int) : Option Nat :=
  match idx with
  | [] => none
  | (k1, p) :: rest => if k1 = k then some p else keyFind rest k

/-- `m_eventRecordsByKey.insert({key, iter})`, only called on a miss. -/
def keyInsert (idx : KeyIndex) (k : List Int) (p : Nat) : KeyIndex :=
  idx ++ [(k, p)]

/-- The state protected by `mtx`: `m_eventRecords` and
`m_eventRecordsByKey`. -/
structure SinkState where
  eventRecords : List EventRecord
  eventRecordsByKey : KeyIndex
  deriving DecidableEq, Repr

/-- Write through an iterator: replace the record at position `i` by
`f` of it.  Out-of-range positions do not occur for reachable states. -/
def modifyAt (l : List EventRecord) (i : Nat) (f : EventRecord → EventRecord) :
    List EventRecord :=
  l.set i (f (l.getD i default))

/-- Outcome of `queueEvent`: the new protected state, the returned
HRESULT, whether `m_onFirstEvent` was fired, and the ghost flag recording
that the moved-from `record` handle was dereferenced. -/
structure QueueOut where
  state : SinkState
  hr : HResult
  notified : Bool
  movedDeref : Bool
  deriving DecidableEq, Repr

/-- `RateLimitedEventHandler::queueEvent`.  Line by line:
null record returns `E_INVALIDARG`; `needsCallback` is set when the buffer
is empty; `record->coalesceCount += 1`; the record is moved into the tail
of `m_eventRecords` (after which the local `record` is an empty handle —
every later access through it sets `movedDeref` and is resolved to the
appended record); if the (appended) record is coalesceable its key is
looked up: on a hit the existing record's `coalesceCount` is added to the
new one's, the existing record is marked `isOld` (the `erase` is commented
out), and the index entry is assigned `existingRecordIter` — its own value,
so the index keeps pointing at the existing record; on a miss the key is
inserted pointing at the new record.  The callback fires outside the lock
when `needsCallback`. -/
def queueEvent (st : SinkState) (record : Option EventRecord) : QueueOut :=
  match record with
  | none => ⟨st, .E_INVALIDARG, false, false⟩
  | some r =>
    let needsCallback := st.eventRecords.isEmpty
    let r1 := { r with coalesceCount := r.coalesceCount + 1 }
    let newPos := st.eventRecords.length
    let buf1 := st.eventRecords ++ [r1]
    if r1.isCoalesceable then
      match keyFind st.eventRecordsByKey r1.coalescingKey with
      | some existingPos =>
        let existingCount := (buf1.getD existingPos default).coalesceCount
        let buf2 := modifyAt buf1 newPos
          (fun q => { q with coalesceCount := q.coalesceCount + existingCount })
        let buf3 := modifyAt buf2 existingPos (fun q => { q with isOld := true })
        ⟨⟨buf3, st.eventRecordsByKey⟩, .S_OK, needsCallback, true⟩
      | none =>
        ⟨⟨buf1, keyInsert st.eventRecordsByKey r1.coalescingKey newPos⟩,
          .S_OK, needsCallback, true⟩
    else
      ⟨⟨buf1, st.eventRecordsByKey⟩, .S_OK, needsCallback, true⟩

/-- A `RateLimitedEventHandler`: the three `CComQIPtr` upstream handler
members (reduced to whether the QI on the construction-time handle
produced a non-null pointer) and the lock-protected state. -/
structure Sink where
  hasAutomationHandler : Bool
  hasFocusHandler : Bool
  hasPropertyHandler : Bool
  state : SinkState
  deriving DecidableEq, Repr

/-- Outcome of one intake call. -/
structure IntakeOut where
  sink : Sink
  hr : HResult
  notified : Bool
  movedDeref : Bool
  deriving DecidableEq, Repr

/-- Run `queueEvent` on the sink's protected state. -/
def liftQueue (s : Sink) (record : Option EventRecord) : IntakeOut :=
  let q := queueEvent s.state record
  ⟨{ s with state := q.state }, q.hr, q.notified, q.movedDeref⟩

/-- `RateLimitedEventHandler::HandleAutomationEvent`: `E_NOTIMPL` when the
automation upstream handler is null, otherwise construct a record and
queue it.  `none` means record construction dereferenced a null element. -/
def HandleAutomationEvent (s : Sink) (pElement : Option Element)
    (eventID : Int) (indet : Bool) : Option IntakeOut :=
  if s.hasAutomationHandler then
    match mkAutomationEventRecord pElement eventID indet with
    | none => none
    | some r => some (liftQueue s (some r))
  else
    some ⟨s, .E_NOTIMPL, false, false⟩

/-- `RateLimitedEventHandler::HandleFocusChangedEvent`. -/
def HandleFocusChangedEvent (s : Sink) (pElement : Option Element)
    (indet : Bool) : Option IntakeOut :=
  if s.hasFocusHandler then
    match mkFocusChangedEventRecord pElement indet with
    | none => none
    | some r => some (liftQueue s (some r))
  else
    some ⟨s, .E_NOTIMPL, false, false⟩

/-- `RateLimitedEventHandler::HandlePropertyChangedEvent`. -/
def HandlePropertyChangedEvent (s : Sink) (pElement : Option Element)
    (propertyID : Int) (value : Int) (indet : Bool) : Option IntakeOut :=
  if s.hasPropertyHandler then
    match mkPropertyChangedEventRecord pElement propertyID value indet with
    | none => none
    | some r => some (liftQueue s (some r))
  else
    some ⟨s, .E_NOTIMPL, false, false⟩

/-- One upstream dispatch performed by `EventRecord_t::emit` through the
`RateLimitedEventHandler::emit*` helpers. -/
inductive EmitCall where
  | automationCall (element : Option Element) (eventID : Int)
  | focusCall (element : Option Element)
  | propertyCall (element : Option Element) (propertyID : Int) (value : Int)
  deriving DecidableEq, Repr

/-- The upstream call a record produces when emitted. -/
def emitDispatch (r : EventRecord) : EmitCall :=
  match r.payload with
  | .focus => .focusCall r.element
  | .automation eid => .automationCall r.element eid
  | .propertyChanged pid v => .propertyCall r.element pid v

/-- `AutomationEventRecord_t::emit` additionally calls
`Beep(500 + coalesceCount * 100, 40)` when `coalesceCount > 1`; the other
two emit functions produce no such effect.  Each pair is the (frequency,
duration) of one audible beep. -/
def emitBeeps (r : EventRecord) : List (Nat × Nat) :=
  match r.payload with
  | .automation _ =>
    if r.coalesceCount > 1 then [(500 + r.coalesceCount * 100, 40)] else []
  | .focus => []
  | .propertyChanged _ _ => []

/-- Outcome of `flush`: the drained sink, the upstream calls in emission
order, and the audible beep effects in emission order. -/
structure FlushOut where
  sink : Sink
  calls : List EmitCall
  beeps : List (Nat × Nat)
  deriving DecidableEq, Repr

/-- `RateLimitedEventHandler::flush`: swap `m_eventRecords` and
`m_eventRecordsByKey` into locals under the lock (leaving both empty),
then emit every record of the local copy whose `isOld` is false, in
buffer order. -/
def flush (s : Sink) : FlushOut :=
  let copy := s.state.eventRecords
  let live := copy.filter (fun r => !r.isOld)
  { sink := { s with state := ⟨[], []⟩ }
    calls := live.map emitDispatch
    beeps := (live.map emitBeeps).flatten }

/-- One externally triggered step of the sink: one of the three intake
callbacks (with the indeterminate constructor read made explicit) or a
`flush`. -/
inductive Step where
  | automationStep (pElement : Option Element) (eventID : Int) (indet : Bool)
  | focusStep (pElement : Option Element) (indet : Bool)
  | propertyStep (pElement : Option Element) (propertyID : Int) (value : Int)
      (indet : Bool)
  | flushStep
  deriving DecidableEq, Repr

/-- Run one step; the `Nat` counts the `m_onFirstEvent` invocations the
step performs (0 or 1).  `none` means the step hit the null-element
dereference inside record construction. -/
def runStep (s : Sink) : Step → Option (Sink × Nat)
  | .automationStep pe eid g =>
    (HandleAutomationEvent s pe eid g).map
      (fun o => (o.sink, if o.notified then 1 else 0))
  | .focusStep pe g =>
    (HandleFocusChangedEvent s pe g).map
      (fun o => (o.sink, if o.notified then 1 else 0))
  | .propertyStep pe pid v g =>
    (HandlePropertyChangedEvent s pe pid v g).map
      (fun o => (o.sink, if o.notified then 1 else 0))
  | .flushStep => some ((flush s).sink, 0)

/-- Run a list of steps, accumulating the notify count. -/
def runSteps (s : Sink) : List Step → Option (Sink × Nat)
  | [] => some (s, 0)
  | step :: rest =>
    match runStep s step with
    | none => none
    | some (s1, n1) =>
      match runSteps s1 rest with
      | none => none
      | some (s2, n2) => some (s2, n1 + n2)

/-- A freshly constructed sink (empty buffer and index) whose three
`CComQIPtr` members are non-null as indicated. -/
def mkSink (hasA hasF hasP : Bool) : Sink := ⟨hasA, hasF, hasP, ⟨[], []⟩⟩

/-- A sink whose construction-time handle exposes all three capabilities. -/
def fullSink : Sink := mkSink true true true

/-- Test element E1 with runtime id `[1,2,3]`. -/
def elem1 : Element := ⟨some [1, 2, 3]⟩

/-- Test element E2 with runtime id `[4,5,6]`. -/
def elem2 : Element := ⟨some [4, 5, 6]⟩

/-- Number of records with key `k` in the buffer that are destined for
emission (i.e. not marked `isOld`, which `flush` skips). -/
def liveKeyCount (st : SinkState) (k : List Int) : Nat :=
  (st.eventRecords.filter
    (fun r => !r.isOld && (r.coalescingKey == k))).length

/-- Sum of `coalesceCount` over the buffer's records with key `k` destined
for emission. -/
def liveCountSum (st : SinkState) (k : List Int) : Nat :=
  ((st.eventRecords.filter
    (fun r => !r.isOld && (r.coalescingKey == k))).map
      (fun r => r.coalesceCount)).sum

/-- Sum of `coalesceCount` over all buffered records with key `k`,
superseded (`isOld`) ones included. -/
def allCountSum (st : SinkState) (k : List Int) : Nat :=
  ((st.eventRecords.filter (fun r => r.coalescingKey == k)).map
      (fun r => r.coalesceCount)).sum

/-- Three automation intakes with the same coalescing key
`[1,2,3,20008]` (element E1, event 20008), no flush in between. -/
def steps3 : List Step :=
  [ .automationStep (some elem1) 20008 true,
    .automationStep (some elem1) 20008 true,
    .automationStep (some elem1) 20008 true ]

/-- Two automation intakes with the same coalescing key. -/
def steps2 : List Step :=
  [ .automationStep (some elem1) 20008 true,
    .automationStep (some elem1) 20008 true ]

/-- An automation intake followed by a focus intake. -/
def stepsAutoFocus : List Step :=
  [ .automationStep (some elem1) 20008 true,
    .focusStep (some elem2) false ]

/-- Index entries always point inside the buffer. -/
def indexInRange (st : SinkState) : Prop :=
  ∀ kp ∈ st.eventRecordsByKey, kp.2 < st.eventRecords.length

theorem indexInRange_queueEvent (st : SinkState) (rec : Option EventRecord)
    (h : indexInRange st) : indexInRange (queueEvent st rec).state := by
  match rec with
  | none => simpa [queueEvent] using h
  | some r =>
    unfold queueEvent
    dsimp only
    split
    · split
      · intro kp hkp
        have hlt := h kp hkp
        simp only [modifyAt, List.length_set, List.length_append,
          List.length_cons, List.length_nil]
        omega
      · intro kp hkp
        simp only [keyInsert, List.mem_append, List.mem_singleton] at hkp
        rcases hkp with hkp | hkp
        · have hlt := h kp hkp
          simp only [List.length_append, List.length_cons, List.length_nil]
          omega
        · subst hkp
          simp only [List.length_append, List.length_cons, List.length_nil]
          omega
    · intro kp hkp
      have hlt := h kp hkp
      simp only [List.length_append, List.length_cons, List.length_nil]
      omega

theorem indexInRange_runStep (s : Sink) (stp : Step) (out : Sink × Nat)
    (h : indexInRange s.state) (hrun : runStep s stp = some out) :
    indexInRange out.1.state := by
  cases stp with
  | automationStep pe eid g =>
    simp only [runStep, HandleAutomationEvent] at hrun
    split at hrun
    · cases hmk : mkAutomationEventRecord pe eid g with
      | none => rw [hmk] at hrun; simp at hrun
      | some r =>
        rw [hmk] at hrun
        simp only [Option.map_some'] at hrun
        cases hrun
        exact indexInRange_queueEvent s.state (some r) h
    · simp only [Option.map_some'] at hrun
      cases hrun
      exact h
  | focusStep pe g =>
    simp only [runStep, HandleFocusChangedEvent] at hrun
    split at hrun
    · cases hmk : mkFocusChangedEventRecord pe g with
      | none => rw [hmk] at hrun; simp at hrun
      | some r =>
        rw [hmk] at hrun
        simp only [Option.map_some'] at hrun
        cases hrun
        exact indexInRange_queueEvent s.state (some r) h
    · simp only [Option.map_some'] at hrun
      cases hrun
      exact h
  | propertyStep pe pid v g =>
    simp only [runStep, HandlePropertyChangedEvent] at hrun
    split at hrun
    · cases hmk : mkPropertyChangedEventRecord pe pid v g with
      | none => rw [hmk] at hrun; simp at hrun
      | some r =>
        rw [hmk] at hrun
        simp only [Option.map_some'] at hrun
        cases hrun
        exact indexInRange_queueEvent s.state (some r) h
    · simp only [Option.map_some'] at hrun
      cases hrun
      exact h
  | flushStep =>
    simp only [runStep] at hrun
    cases hrun
    intro kp hkp
    simp [flush] at hkp

theorem indexInRange_runSteps (s : Sink) (steps : List Step) (out : Sink × Nat)
    (h : indexInRange s.state) (hrun : runSteps s steps = some out) :
    indexInRange out.1.state := by
  induction steps generalizing s out with
  | nil =>
    simp only [runSteps] at hrun
    cases hrun
    exact h
  | cons stp rest ih =>
    simp only [runSteps] at hrun
    cases h1 : runStep s stp with
    | none => rw [h1] at hrun; simp at hrun
    | some p1 =>
      obtain ⟨s1, n1⟩ := p1
      rw [h1] at hrun
      dsimp only at hrun
      cases h2 : runSteps s1 rest with
      | none => rw [h2] at hrun; simp at hrun
      | some p2 =>
        obtain ⟨s2, n2⟩ := p2
        rw [h2] at hrun
        simp only at hrun
        cases hrun
        exact ih s1 ⟨s2, n2⟩ (indexInRange_runStep s stp ⟨s1, n1⟩ h h1) h2

/-- C1: the claim says that with no interleaving flush at most one record
per coalescingKey is destined for emission, and that a key hit removes the
existing record and repoints the index at the newly appended record.  On
the code, after the three same-key automation intakes of `steps3`, the
buffer holds TWO records with key `[1,2,3,20008]` that `flush` would emit
(only the first record ever gets `isOld` set, because the index entry is
self-assigned and keeps pointing at position 0 instead of at the new
record), so the claim fails. -/
theorem C1_three_same_key_intakes_two_live_records :
    (runSteps fullSink steps3).map (fun out =>
      (liveKeyCount out.1.state [1, 2, 3, 20008],
       keyFind out.1.state.eventRecordsByKey [1, 2, 3, 20008])) =
      some (2, some 0) ∧
    ¬ (runSteps fullSink steps3).map (fun out =>
        liveKeyCount out.1.state [1, 2, 3, 20008]) = some 1 := by
  decide

/-- C2: the claim says the enqueue never dereferences an empty (moved-from)
record handle.  In `queueEvent` the record is moved into `m_eventRecords`
and the subsequent `record->isCoalesceable` / `record->coalescingKey` /
`record->coalesceCount` accesses go through the now-empty `unique_ptr`:
every successful intake sets the `movedDeref` ghost flag, refuting the
claim. -/
theorem C2_enqueue_dereferences_moved_from_record :
    (HandleAutomationEvent fullSink (some elem1) 20008 true).map
      (fun o => (o.hr, o.movedDeref)) = some (.S_OK, true) ∧
    (HandleFocusChangedEvent fullSink (some elem1) false).map
      (fun o => (o.hr, o.movedDeref)) = some (.S_OK, true) ∧
    (HandlePropertyChangedEvent fullSink (some elem1) 30005 7 true).map
      (fun o => (o.hr, o.movedDeref)) = some (.S_OK, true) := by
  decide

/-- C3: the claim says the summed `coalesceCount` over key-K records in
the buffer equals the number of intakes for K since the last flush.  After
the three intakes of `steps3` (key `[1,2,3,20008]`), the records destined
for emission carry counts summing to 4 and all buffered records to 5,
not 3: the third intake merges the stale count of the first record (which
the mis-updated index still designates) instead of the second record's,
and the superseded second record also remains destined for emission. -/
theorem C3_count_not_conserved_after_three_intakes :
    (runSteps fullSink steps3).map (fun out =>
      (liveCountSum out.1.state [1, 2, 3, 20008],
       allCountSum out.1.state [1, 2, 3, 20008])) = some (4, 5) ∧
    steps3.length = 3 := by
  decide

/-- C4 counterexample: the claim says notify fires when the buffer was
empty before the enqueue OR the enqueued record has forceFlush (with Focus
records setting forceFlush), predicting two notify invocations for an
automation intake followed by a focus intake.  The code fires
`m_onFirstEvent` only on the empty buffer, so the run performs exactly one
invocation, not two. -/
theorem C4_focus_enqueue_without_notify :
    (runSteps fullSink stepsAutoFocus).map (fun out => out.2) = some 1 ∧
    ¬ (runSteps fullSink stepsAutoFocus).map (fun out => out.2) = some 2 := by
  decide

/-- C4 amended: the notify callback is invoked after a successful enqueue
exactly when the buffer was empty before the enqueue; no forceFlush
mechanism exists, and the enqueued record (Focus included) has no
influence on whether notify fires. -/
theorem C4_notified_iff_buffer_was_empty (st : SinkState) (r : EventRecord) :
    (queueEvent st (some r)).notified = st.eventRecords.isEmpty := by
  simp only [queueEvent]
  split
  · split <;> rfl
  · rfl

/-- C5: the claim says exactly one emission occurs per coalescing class in
a flush, at the position of the class's most recent enqueue.  After the
three same-key intakes of `steps3`, `flush` dispatches TWO upstream
automation calls for the single class (the second record is never marked
old because the index kept pointing at the first record). -/
theorem C5_two_emissions_for_one_coalescing_class :
    (runSteps fullSink steps3).map (fun out => (flush out.1).calls) =
      some [.automationCall (some elem1) 20008,
            .automationCall (some elem1) 20008] := by
  decide

/-- C6: an intake of a kind whose upstream handler was not provided at
construction returns NotImplemented, leaves the sink (buffer and index)
unchanged, and does not invoke notify.  This holds for each of the three
intake kinds. -/
theorem C6_absent_handler_notimpl_no_effect (s : Sink) (pe : Option Element)
    (eid pid v : Int) (g : Bool) :
    (s.hasAutomationHandler = false →
      HandleAutomationEvent s pe eid g = some ⟨s, .E_NOTIMPL, false, false⟩) ∧
    (s.hasFocusHandler = false →
      HandleFocusChangedEvent s pe g = some ⟨s, .E_NOTIMPL, false, false⟩) ∧
    (s.hasPropertyHandler = false →
      HandlePropertyChangedEvent s pe pid v g =
        some ⟨s, .E_NOTIMPL, false, false⟩) := by
  refine ⟨fun h => ?_, fun h => ?_, fun h => ?_⟩ <;>
    simp [HandleAutomationEvent, HandleFocusChangedEvent,
      HandlePropertyChangedEvent, h]

/-- C6 witness: concrete sinks each missing one capability reject the
matching intake with NotImplemented and stay unchanged. -/
theorem C6_absent_handler_notimpl_no_effect_witness :
    HandleAutomationEvent (mkSink false true true) (some elem1) 20008 true =
      some ⟨mkSink false true true, .E_NOTIMPL, false, false⟩ ∧
    HandleFocusChangedEvent (mkSink true false true) (some elem1) false =
      some ⟨mkSink true false true, .E_NOTIMPL, false, false⟩ ∧
    HandlePropertyChangedEvent (mkSink true true false) (some elem1) 30005 7
        true =
      some ⟨mkSink true true false, .E_NOTIMPL, false, false⟩ :=
  ⟨(C6_absent_handler_notimpl_no_effect (mkSink false true true) (some elem1)
      20008 30005 7 true).1 rfl,
   (C6_absent_handler_notimpl_no_effect (mkSink true false true) (some elem1)
      20008 30005 7 false).2.1 rfl,
   (C6_absent_handler_notimpl_no_effect (mkSink true true false) (some elem1)
      20008 30005 7 true).2.2 rfl⟩

/-- C7 counterexample: the claim says an intake with a null element
returns InvalidArgument and leaves the state unchanged.  On the code an
automation intake with a null element (when the indeterminate coalesceable
flag reads false) returns S_OK and appends a record to the buffer; no
InvalidArgument is produced. -/
theorem C7_null_element_enqueued_ok :
    (HandleAutomationEvent fullSink none 20008 false).map
      (fun o => (o.hr, o.sink.state.eventRecords.length)) =
      some (.S_OK, 1) ∧
    ¬ (HandleAutomationEvent fullSink none 20008 false).map (fun o => o.hr) =
        some .E_INVALIDARG := by
  decide

/-- C7 amended: intakes do not validate the element.  With a null element,
when the indeterminate coalesceable flag reads false the record is
constructed and enqueued and the intake returns S_OK (buffer grows by
one); when it reads true, record construction dereferences the null
element and no status is returned at all.  The only InvalidArgument path
is `queueEvent`'s check for a null record handle, which the three intakes
never trigger (`make_unique` cannot yield null). -/
theorem C7_null_element_not_rejected (s : Sink) (st : SinkState)
    (eid pid v : Int) :
    (s.hasAutomationHandler = true →
      (HandleAutomationEvent s none eid false).map
        (fun o => (o.hr, o.sink.state.eventRecords.length)) =
        some (.S_OK, s.state.eventRecords.length + 1) ∧
      HandleAutomationEvent s none eid true = none) ∧
    (s.hasFocusHandler = true →
      (HandleFocusChangedEvent s none false).map
        (fun o => (o.hr, o.sink.state.eventRecords.length)) =
        some (.S_OK, s.state.eventRecords.length + 1) ∧
      HandleFocusChangedEvent s none true = none) ∧
    (s.hasPropertyHandler = true →
      (HandlePropertyChangedEvent s none pid v false).map
        (fun o => (o.hr, o.sink.state.eventRecords.length)) =
        some (.S_OK, s.state.eventRecords.length + 1) ∧
      HandlePropertyChangedEvent s none pid v true = none) ∧
    queueEvent st none = ⟨st, .E_INVALIDARG, false, false⟩ := by
  refine ⟨fun h => ⟨?_, ?_⟩, fun h => ⟨?_, ?_⟩, fun h => ⟨?_, ?_⟩,
      by simp [queueEvent]⟩ <;>
    simp [HandleAutomationEvent, HandleFocusChangedEvent,
      HandlePropertyChangedEvent, mkAutomationEventRecord,
      mkFocusChangedEventRecord, mkPropertyChangedEventRecord,
      mkEventRecordBase, getRuntimeIDFromElement, liftQueue, queueEvent, h]

/-- C7 amended witness: instantiation at a fresh full-capability sink. -/
theorem C7_null_element_not_rejected_witness :
    ((HandleAutomationEvent fullSink none 20008 false).map
        (fun o => (o.hr, o.sink.state.eventRecords.length)) =
        some (.S_OK, fullSink.state.eventRecords.length + 1) ∧
      HandleAutomationEvent fullSink none 20008 true = none) ∧
    ((HandleFocusChangedEvent fullSink none false).map
        (fun o => (o.hr, o.sink.state.eventRecords.length)) =
        some (.S_OK, fullSink.state.eventRecords.length + 1) ∧
      HandleFocusChangedEvent fullSink none true = none) ∧
    ((HandlePropertyChangedEvent fullSink none 30005 7 false).map
        (fun o => (o.hr, o.sink.state.eventRecords.length)) =
        some (.S_OK, fullSink.state.eventRecords.length + 1) ∧
      HandlePropertyChangedEvent fullSink none 30005 7 true = none) ∧
    queueEvent ⟨[], []⟩ none = ⟨⟨[], []⟩, .E_INVALIDARG, false, false⟩ := by
  have h := C7_null_element_not_rejected fullSink ⟨[], []⟩ 20008 30005 7
  exact ⟨h.1 rfl, h.2.1 rfl, h.2.2.1 rfl, h.2.2.2⟩

/-- C8: the claim says the coalescing key of an Automation record is
always `[runtimeId..., eventId]` (degrading only when the runtime id is
unobtainable) and that the record stays coalesceable.  Because the
`isCoalesceable` member is initialised from its own indeterminate value,
constructing an Automation record for element E1 (runtime id `[1,2,3]`
obtainable) yields key `[20008]` with `isCoalesceable = false` when the
indeterminate read is false, and key `[1,2,3,20008]` when it is true: the
key and the coalesceability depend on indeterminate memory, refuting the
claim.  The PropertyChanged sentinel (20004) conjunct shows the same for
that kind. -/
theorem C8_key_depends_on_indeterminate_flag :
    mkAutomationEventRecord (some elem1) 20008 false =
      some ⟨some elem1, false, [20008], 0, false, .automation 20008⟩ ∧
    mkAutomationEventRecord (some elem1) 20008 true =
      some ⟨some elem1, true, [1, 2, 3, 20008], 0, false,
        .automation 20008⟩ ∧
    mkPropertyChangedEventRecord (some elem1) 30005 7 false =
      some ⟨some elem1, false, [20004, 30005], 0, false,
        .propertyChanged 30005 7⟩ := by
  decide

/-- C9 counterexample: the claim says buffer and index are empty together
after any sequence of successful intakes, Focus intakes included.  One
successful Focus intake whose indeterminate coalesceable flag reads false
leaves the buffer non-empty while the index is empty (the flag decides
whether a record enters the index, and for a Focus record it is
indeterminate), refuting the equivalence. -/
theorem C9_focus_breaks_buffer_index_iff :
    (runSteps fullSink [.focusStep (some elem1) false]).map (fun out =>
      (out.1.state.eventRecords.isEmpty,
       out.1.state.eventRecordsByKey.isEmpty)) = some (false, true) := by
  decide

/-- C9 amended: after any sequence of successful intakes and flushes from
a fresh sink, every index entry points at a position inside the buffer
(so a non-empty index implies a non-empty buffer), and an empty buffer
implies an empty index.  The converse direction of the claimed
equivalence fails: a Focus intake whose indeterminate coalesceable flag
reads false buffers a record without an index entry (when the flag reads
true, even a Focus record's runtime id enters the index). -/
theorem C9_index_nonempty_implies_buffer_nonempty (steps : List Step)
    (out : Sink × Nat) (h : runSteps fullSink steps = some out) :
    (∀ kp ∈ out.1.state.eventRecordsByKey,
      kp.2 < out.1.state.eventRecords.length) ∧
    (out.1.state.eventRecords = [] → out.1.state.eventRecordsByKey = []) := by
  have hinv : indexInRange out.1.state :=
    indexInRange_runSteps fullSink steps out
      (by intro kp hkp; simp [fullSink, mkSink] at hkp) h
  refine ⟨hinv, fun he => ?_⟩
  cases hidx : out.1.state.eventRecordsByKey with
  | nil => rfl
  | cons kp rest =>
    have hlt := hinv kp (by rw [hidx]; exact List.mem_cons_self kp rest)
    rw [he] at hlt
    simp at hlt

/-- The sink and notify count produced by a single successful Focus
intake on a fresh full-capability sink. -/
def focusRunOut : Sink × Nat :=
  (⟨true, true, true,
    ⟨[⟨some elem1, false, [], 1, false, .focus⟩], []⟩⟩, 1)

/-- C9 amended witness: instantiation at the one-Focus-intake run. -/
theorem C9_index_nonempty_implies_buffer_nonempty_witness :
    (∀ kp ∈ focusRunOut.1.state.eventRecordsByKey,
      kp.2 < focusRunOut.1.state.eventRecords.length) ∧
    (focusRunOut.1.state.eventRecords = [] →
      focusRunOut.1.state.eventRecordsByKey = []) :=
  C9_index_nonempty_implies_buffer_nonempty [.focusStep (some elem1) false]
    focusRunOut (by decide)

/-- C10: the claim says emission's only observable effect is the dispatch
to the matching upstream handler, regardless of coalesceCount.  Flushing
after the two same-key automation intakes of `steps2` dispatches one
upstream call but also produces an audible `Beep(700, 40)` because the
surviving record's coalesceCount is 2 and `AutomationEventRecord_t::emit`
beeps whenever the count exceeds 1, refuting the claim. -/
theorem C10_flush_beeps_on_coalesced_record :
    (runSteps fullSink steps2).map (fun out =>
      ((flush out.1).calls, (flush out.1).beeps)) =
      some ([.automationCall (some elem1) 20008], [(700, 40)]) ∧
    ¬ (runSteps fullSink steps2).map (fun out => (flush out.1).beeps) =
        some [] := by
  decide

end UIAEventLimiter
